import Mathlib

/-!
Verification of the core logic of `src/Base/app_ollama.py`:
the tolerant JSON extractor `extract_json_from_text`, the chat transport
`ollama_chat`, and the Streamlit session/handler logic around them.

Python strings are modelled as `List Char`.  Python's `json.loads`
(CPython `json.decoder`, default strict mode, no custom hooks) is modelled
by `json_loads` below.  Machine-level details that no claim touches are
simplified and noted where they occur (surrogate pairs that do not form a
valid scalar value, non-ASCII whitespace classes, float value semantics).
-/

/-- Values produced by Python's `json.loads`.  Integer literals (no
fraction, no exponent) become `jint`; any other numeric literal —
including the `NaN` / `Infinity` / `-Infinity` constants that CPython
accepts by default — is kept as its source lexeme in `jfloat`, since no
claim depends on float arithmetic. -/
inductive Json where
  | jnull : Json
  | jbool : Bool → Json
  | jint : Int → Json
  | jfloat : List Char → Json
  | jstr : List Char → Json
  | jarr : List Json → Json
  | jobj : List (List Char × Json) → Json

/-- The single failure mode of the extractor: `json.JSONDecodeError`
raised by `json.loads` (the spec's `ParseError`). -/
inductive ParseError where
  | jsonDecodeError : ParseError
deriving DecidableEq

/-- JSON whitespace characters skipped by CPython's decoder (`[ \t\n\r]`). -/
def isJsonWs (c : Char) : Bool :=
  c == ' ' || c == '\t' || c == '\n' || c == '\r'

/-- Skip JSON whitespace. -/
def skipWs (cs : List Char) : List Char :=
  cs.dropWhile isJsonWs

/-- Hexadecimal digit test. -/
def isHexDig (c : Char) : Bool :=
  c.isDigit || ('a' ≤ c && c ≤ 'f') || ('A' ≤ c && c ≤ 'F')

/-- Parse exactly four hex digits (the `XXXX` of a `\uXXXX` escape). -/
def hex4 : List Char → Option (Nat × List Char)
  | a :: b :: c :: d :: rest =>
    if isHexDig a && isHexDig b && isHexDig c && isHexDig d then
      let dv : Char → Nat := fun ch =>
        if ch.isDigit then ch.toNat - 48
        else if 'a' ≤ ch ∧ ch ≤ 'f' then ch.toNat - 87
        else ch.toNat - 55
      some (((dv a * 16 + dv b) * 16 + dv c) * 16 + dv d, rest)
    else none
  | _ => none

/-- Single-character string escapes accepted by the decoder. -/
def escMap : Char → Option Char
  | '"' => some '"'
  | '\\' => some '\\'
  | '/' => some '/'
  | 'b' => some '\x08'
  | 'f' => some '\x0c'
  | 'n' => some '\n'
  | 'r' => some '\r'
  | 't' => some '\t'
  | _ => none

/-- Scan a JSON string body (the part after the opening quote) in strict
mode: unescaped control characters are rejected, `\uXXXX` escapes are
decoded with surrogate-pair combination.  A lone surrogate, which CPython
would keep as an unpaired code unit, is mapped through `Char.ofNat`
(no claim exercises that corner).  The fuel is the input length plus one;
every step consumes at least one character, so fuel never runs out on
inputs the real scanner accepts. -/
def scanString : Nat → List Char → Except ParseError (List Char × List Char)
  | 0, _ => .error .jsonDecodeError
  | _ + 1, [] => .error .jsonDecodeError
  | _ + 1, '"' :: rest => .ok ([], rest)
  | fuel + 1, '\\' :: rest =>
    match rest with
    | [] => .error .jsonDecodeError
    | 'u' :: r2 =>
      match hex4 r2 with
      | none => .error .jsonDecodeError
      | some (n, r3) =>
        if 0xD800 ≤ n ∧ n ≤ 0xDBFF then
          match r3 with
          | '\\' :: 'u' :: r4 =>
            match hex4 r4 with
            | some (m, r5) =>
              if 0xDC00 ≤ m ∧ m ≤ 0xDFFF then
                match scanString fuel r5 with
                | .ok (s, r6) =>
                  .ok (Char.ofNat (0x10000 + (n - 0xD800) * 0x400 + (m - 0xDC00)) :: s, r6)
                | .error e => .error e
              else
                match scanString fuel r3 with
                | .ok (s, r6) => .ok (Char.ofNat n :: s, r6)
                | .error e => .error e
            | none =>
              match scanString fuel r3 with
              | .ok (s, r6) => .ok (Char.ofNat n :: s, r6)
              | .error e => .error e
          | _ =>
            match scanString fuel r3 with
            | .ok (s, r6) => .ok (Char.ofNat n :: s, r6)
            | .error e => .error e
        else
          match scanString fuel r3 with
          | .ok (s, r6) => .ok (Char.ofNat n :: s, r6)
          | .error e => .error e
    | e :: r2 =>
      match escMap e with
      | some c =>
        match scanString fuel r2 with
        | .ok (s, r3) => .ok (c :: s, r3)
        | .error err => .error err
      | none => .error .jsonDecodeError
  | fuel + 1, c :: rest =>
    if c.toNat < 0x20 then .error .jsonDecodeError
    else
      match scanString fuel rest with
      | .ok (s, r) => .ok (c :: s, r)
      | .error e => .error e

/-- Digit run value. -/
def digitsVal (ds : List Char) : Nat :=
  ds.foldl (fun n c => n * 10 + (c.toNat - 48)) 0

/-- Parse a JSON number at the head of the input, following CPython's
`NUMBER_RE`: `(-?(?:0|[1-9]\d*))(\.\d+)?([eE][-+]?\d+)?`.  Integer
literals produce `jint`; anything with a fraction or exponent keeps its
lexeme in `jfloat`. -/
def parseNumber (cs : List Char) : Except ParseError (Json × List Char) :=
  let sign : List Char × List Char :=
    match cs with
    | '-' :: r => (['-'], r)
    | _ => ([], cs)
  match sign.2 with
  | '0' :: r1 =>
    parseNumTail sign.1 ['0'] r1
  | c :: r1 =>
    if c.isDigit then
      let body := (c :: r1).span Char.isDigit
      parseNumTail sign.1 body.1 body.2
    else .error .jsonDecodeError
  | [] => .error .jsonDecodeError
where
  parseNumTail (sgn intPart : List Char) (rest : List Char) :
      Except ParseError (Json × List Char) :=
    let frac : List Char × List Char :=
      match rest with
      | '.' :: r2 =>
        let ds := r2.span Char.isDigit
        if ds.1.isEmpty then ([], rest) else ('.' :: ds.1, ds.2)
      | _ => ([], rest)
    let expPart : List Char × List Char :=
      match frac.2 with
      | e :: r3 =>
        if e == 'e' || e == 'E' then
          match r3 with
          | s :: r4 =>
            if s == '+' || s == '-' then
              let ds := r4.span Char.isDigit
              if ds.1.isEmpty then ([], frac.2) else (e :: s :: ds.1, ds.2)
            else
              let ds := r3.span Char.isDigit
              if ds.1.isEmpty then ([], frac.2) else (e :: ds.1, ds.2)
          | [] => ([], frac.2)
        else ([], frac.2)
      | [] => ([], frac.2)
    if frac.1.isEmpty && expPart.1.isEmpty then
      let n : Int := Int.ofNat (digitsVal intPart)
      .ok (.jint (if sgn.isEmpty then n else -n), rest)
    else
      .ok (.jfloat (sgn ++ intPart ++ frac.1 ++ expPart.1), expPart.2)

/-- Python `dict` insertion: an existing key has its value replaced in
place, a new key is appended.  This reproduces how `dict(pairs)` treats
duplicate keys (later value wins, first position kept). -/
def dictInsert (kvs : List (List Char × Json)) (k : List Char) (v : Json) :
    List (List Char × Json) :=
  if kvs.any (fun kv => kv.1 == k) then
    kvs.map (fun kv => if kv.1 == k then (kv.1, v) else kv)
  else kvs ++ [(k, v)]

/-- Build a dict from parsed key/value pairs in order. -/
def buildDict (pairs : List (List Char × Json)) : List (List Char × Json) :=
  pairs.foldl (fun acc kv => dictInsert acc kv.1 kv.2) []

mutual

/-- Parse one JSON value at the head of the input (CPython `scan_once`).
The fuel argument bounds the mutual recursion depth; callers pass the
input length plus one, which always suffices because every nested value
or object member consumes at least one character before recursing. -/
def parseValue : Nat → List Char → Except ParseError (Json × List Char)
  | 0, _ => .error .jsonDecodeError
  | fuel + 1, cs =>
    match cs with
    | [] => .error .jsonDecodeError
    | '"' :: rest =>
      match scanString (rest.length + 1) rest with
      | .ok (s, r) => .ok (.jstr s, r)
      | .error e => .error e
    | '{' :: rest =>
      match skipWs rest with
      | '}' :: r => .ok (.jobj [], r)
      | cs2 =>
        match parseMembers fuel cs2 with
        | .ok (pairs, r) => .ok (.jobj (buildDict pairs), r)
        | .error e => .error e
    | '[' :: rest =>
      match skipWs rest with
      | ']' :: r => .ok (.jarr [], r)
      | cs2 =>
        match parseElems fuel cs2 with
        | .ok (elems, r) => .ok (.jarr elems, r)
        | .error e => .error e
    | c :: _ =>
      if ['n', 'u', 'l', 'l'].isPrefixOf cs then .ok (.jnull, cs.drop 4)
      else if ['t', 'r', 'u', 'e'].isPrefixOf cs then .ok (.jbool true, cs.drop 4)
      else if ['f', 'a', 'l', 's', 'e'].isPrefixOf cs then .ok (.jbool false, cs.drop 5)
      else if ['N', 'a', 'N'].isPrefixOf cs then .ok (.jfloat ['N', 'a', 'N'], cs.drop 3)
      else if ['I', 'n', 'f', 'i', 'n', 'i', 't', 'y'].isPrefixOf cs then
        .ok (.jfloat ['I', 'n', 'f', 'i', 'n', 'i', 't', 'y'], cs.drop 8)
      else if ['-', 'I', 'n', 'f', 'i', 'n', 'i', 't', 'y'].isPrefixOf cs then
        .ok (.jfloat ['-', 'I', 'n', 'f', 'i', 'n', 'i', 't', 'y'], cs.drop 9)
      else if c == '-' || c.isDigit then parseNumber cs
      else .error .jsonDecodeError

/-- Parse the members of a JSON object, positioned at the start of a key
(CPython `JSONObject` loop).  Returns the raw pair list in source order. -/
def parseMembers : Nat → List Char →
    Except ParseError (List (List Char × Json) × List Char)
  | 0, _ => .error .jsonDecodeError
  | fuel + 1, cs =>
    match cs with
    | '"' :: rest =>
      match scanString (rest.length + 1) rest with
      | .error e => .error e
      | .ok (key, r1) =>
        match skipWs r1 with
        | ':' :: r2 =>
          match parseValue fuel (skipWs r2) with
          | .error e => .error e
          | .ok (v, r3) =>
            match skipWs r3 with
            | '}' :: r4 => .ok ([(key, v)], r4)
            | ',' :: r4 =>
              match parseMembers fuel (skipWs r4) with
              | .ok (more, r5) => .ok ((key, v) :: more, r5)
              | .error e => .error e
            | _ => .error .jsonDecodeError
        | _ => .error .jsonDecodeError
    | _ => .error .jsonDecodeError

/-- Parse the elements of a JSON array, positioned at the start of a
value (CPython `JSONArray` loop). -/
def parseElems : Nat → List Char → Except ParseError (List Json × List Char)
  | 0, _ => .error .jsonDecodeError
  | fuel + 1, cs =>
    match parseValue fuel cs with
    | .error e => .error e
    | .ok (v, r1) =>
      match skipWs r1 with
      | ']' :: r2 => .ok ([v], r2)
      | ',' :: r2 =>
        match parseElems fuel (skipWs r2) with
        | .ok (more, r3) => .ok (v :: more, r3)
        | .error e => .error e
      | _ => .error .jsonDecodeError

end

/-- Model of Python's `json.loads` on a string: skip leading whitespace,
parse one value, skip trailing whitespace, and reject any remaining input
(CPython's "Extra data" error). -/
def json_loads (s : List Char) : Except ParseError Json :=
  match parseValue (s.length + 1) (skipWs s) with
  | .error e => .error e
  | .ok (v, rest) =>
    if (skipWs rest).isEmpty then .ok v else .error .jsonDecodeError

/-! Python string operations used by `extract_json_from_text`, modelled on
`List Char`. -/

/-- Whitespace stripped by Python's `str.strip()` — the ASCII whitespace
characters.  (CPython also strips rarer Unicode space characters; no
claim involves those.) -/
def isPySpace (c : Char) : Bool :=
  c == ' ' || c == '\t' || c == '\n' || c == '\r' || c == '\x0b' || c == '\x0c'

/-- Python `str.strip()`: remove whitespace from both ends. -/
def pyStrip (l : List Char) : List Char :=
  ((l.dropWhile isPySpace).reverse.dropWhile isPySpace).reverse

/-- Python `str.startswith(pre)`. -/
def pyStartswith (l pre : List Char) : Bool :=
  pre.isPrefixOf l

/-- Python `str.endswith(suf)`. -/
def pyEndswith (l suf : List Char) : Bool :=
  suf.isSuffixOf l

/-- Python `str.find(c)` for a single character: index of the first
occurrence, `none` standing for `-1`. -/
def pyFind (l : List Char) (c : Char) : Option Nat :=
  l.findIdx? (fun x => x == c)

/-- Python `str.rfind(c)` for a single character: index of the last
occurrence, `none` standing for `-1`. -/
def pyRfind (l : List Char) (c : Char) : Option Nat :=
  match l.reverse.findIdx? (fun x => x == c) with
  | some i => some (l.length - 1 - i)
  | none => none

/-- Python slice `l[s:e]` for non-negative bounds. -/
def pySlice (l : List Char) (s e : Nat) : List Char :=
  (l.take e).drop s

/-- Split off the text before the first occurrence of `sep` (assumed
non-empty): returns the prefix before `sep` and the suffix after it, or
`none` when `sep` does not occur. -/
def firstSplit (sep : List Char) : List Char → Option (List Char × List Char)
  | [] => if sep.isPrefixOf ([] : List Char) then some ([], []) else none
  | c :: r =>
    if sep.isPrefixOf (c :: r) then some ([], (c :: r).drop sep.length)
    else
      match firstSplit sep r with
      | some pq => some (c :: pq.1, pq.2)
      | none => none

/-- Python `str.split(sep)` for a non-empty separator: split on each
non-overlapping occurrence, left to right.  The fuel is the input length
plus one; each round removes at least the separator, so it never runs
out for a non-empty separator. -/
def pySplitAux (sep : List Char) : Nat → List Char → List (List Char)
  | 0, l => [l]
  | fuel + 1, l =>
    match firstSplit sep l with
    | none => [l]
    | some pq => pq.1 :: pySplitAux sep fuel pq.2

/-- Python `str.split(sep)` for a non-empty separator. -/
def pySplit (sep l : List Char) : List (List Char) :=
  pySplitAux sep (l.length + 1) l

/-- Python substring containment `sep in l`. -/
def pyContains (sep l : List Char) : Bool :=
  (firstSplit sep l).isSome

/-! The extractor `extract_json_from_text` (src/Base/app_ollama.py lines
83–102), split into its two sequential reassignments of `text`. -/

/-- The code-fence delimiter searched for by the extractor. -/
def fenceDelim : List Char := "```".toList

/-- Does a stripped fence segment qualify as the working text?  This is
the loop condition `part.startswith("{") and part.endswith("}")` applied
to `part = part.strip()`. -/
def fencedQual (p : List Char) : Bool :=
  pyStartswith (pyStrip p) ['{'] && pyEndswith (pyStrip p) ['}']

/-- The `for part in parts: ... break` loop of the extractor: the first
qualifying segment, stripped, replaces `text`; if none qualifies, `text`
is left unchanged. -/
def fenceLoop : List (List Char) → List Char → List Char
  | [], text => text
  | p :: ps, text => if fencedQual p then pyStrip p else fenceLoop ps text

/-- Stage 1 of the extractor: `if "```" in text: parts = text.split("```");
for part in parts: ...`. -/
def fenceStage (text : List Char) : List Char :=
  if pyContains fenceDelim text then fenceLoop (pySplit fenceDelim text) text
  else text

/-- Stage 2 of the extractor: `if not text.strip().startswith("{"):
start = text.find("{"); end = text.rfind("}"); if start != -1 and
end != -1: text = text[start : end + 1]`. -/
def bracketStage (text : List Char) : List Char :=
  if pyStartswith (pyStrip text) ['{'] then text
  else
    match pyFind text '{', pyRfind text '}' with
    | some s, some e => pySlice text s (e + 1)
    | _, _ => text

/-- Model of `extract_json_from_text`: run the two reassignment stages in
sequence, then `json.loads` the resulting working text. -/
def extract_json_from_text (text : List Char) : Except ParseError Json :=
  json_loads (bracketStage (fenceStage text))

/-! The chat transport `ollama_chat` (src/Base/app_ollama.py lines 67–80).
The HTTP layer is external, so `requests.post` is modelled as a function
argument from the request payload and timeout to either a raised
transport exception or a response; a response body that `resp.json()`
cannot decode is modelled as `none`. -/

/-- A role-tagged chat message (the dicts built by the callers). -/
structure ChatMessage where
  role : List Char
  content : List Char

/-- The serialized request body `{"model": ..., "messages": ..., "stream": false}`. -/
structure ChatPayload where
  model : List Char
  messages : List ChatMessage
  stream : Bool

/-- Exceptions `requests.post` itself can raise: connection failure or
read timeout. -/
inductive RequestFailure where
  | connectionError : RequestFailure
  | readTimeout : RequestFailure
deriving DecidableEq

/-- An HTTP response: status code and decoded JSON body (`none` when
`resp.json()` would raise `ValueError`). -/
structure HTTPResponse where
  status : Nat
  body : Option Json

/-- The spec's `TransportError` taxonomy, one constructor per distinct
exception class that can escape `ollama_chat`: `ConnectionError`,
`ReadTimeout`, `HTTPError` from `raise_for_status`, `ValueError` from
`resp.json()`, and `KeyError` from the `data["message"]["content"]`
lookups. -/
inductive TransportError where
  | connectionError : TransportError
  | readTimeout : TransportError
  | httpStatus : Nat → TransportError
  | bodyDecodeError : TransportError
  | missingField : TransportError
deriving DecidableEq

/-- Python dict lookup on a parsed JSON object. -/
def dictLookup (kvs : List (List Char × Json)) (k : List Char) : Option Json :=
  match kvs.find? (fun kv => kv.1 == k) with
  | some kv => some kv.2
  | none => none

/-- Python subscription `data[k]`: succeeds only on a dict containing the
key (a missing key raises `KeyError`; subscribing a non-dict raises
`TypeError` — both surface as `missingField` here). -/
def pyIndex (j : Json) (k : List Char) : Option Json :=
  match j with
  | .jobj kvs => dictLookup kvs k
  | _ => none

/-- Model of `ollama_chat`: build the payload, issue one blocking POST,
`raise_for_status`, decode the body, and return
`data["message"]["content"]`.  `post` is the HTTP layer; it is applied
exactly once, to the single payload the function builds. -/
def ollama_chat (post : ChatPayload → Nat → Except RequestFailure HTTPResponse)
    (messages : List ChatMessage) (model : List Char) (timeout : Nat) :
    Except TransportError Json :=
  let payload : ChatPayload := ⟨model, messages, false⟩
  match post payload timeout with
  | .error .connectionError => .error .connectionError
  | .error .readTimeout => .error .readTimeout
  | .ok resp =>
    if 400 ≤ resp.status ∧ resp.status < 600 then .error (.httpStatus resp.status)
    else
      match resp.body with
      | none => .error .bodyDecodeError
      | some data =>
        match pyIndex data ['m', 'e', 's', 's', 'a', 'g', 'e'] with
        | none => .error .missingField
        | some msg =>
          match pyIndex msg ['c', 'o', 'n', 't', 'e', 'n', 't'] with
          | none => .error .missingField
          | some content => .ok content

/-! The Streamlit page logic (src/Base/app_ollama.py lines 190–457),
modelled as one script run over the three transient session slots.  The
network-dependent outcomes of `call_prompt_evaluator` and the two
`call_llm_answer` calls are inputs to the run; the run itself records
which messages are emitted, how many chat requests are issued, and what
the read-only display regions show. -/

/-- An exception escaping `call_prompt_evaluator`: a transport failure
from `ollama_chat` or a `ParseError` from `extract_json_from_text`. -/
inductive ActionError where
  | transport : TransportError → ActionError
  | parse : ParseError → ActionError
deriving DecidableEq

/-- The user-visible warning/error messages the handlers can emit. -/
inductive UIMessage where
  | emptyPromptWarning : UIMessage
  | evaluateError : ActionError → UIMessage
  | compareTimeoutError : UIMessage
  | compareError : TransportError → UIMessage
deriving DecidableEq

/-- Python truthiness of a JSON value (`if evaluation:` and
`if improved_prompt:`).  A `jfloat` is falsy when its mantissa digits are
all zero (so `0.0` and `-0.0e5` are falsy while `NaN` and `Infinity` are
truthy, as in Python). -/
def pyTruthy : Json → Bool
  | .jnull => false
  | .jbool b => b
  | .jint n => n != 0
  | .jfloat lex =>
    let mant := lex.takeWhile (fun c => !(c == 'e' || c == 'E'))
    let digs := mant.filter Char.isDigit
    !(!digs.isEmpty && digs.all (fun c => c == '0'))
  | .jstr s => !s.isEmpty
  | .jarr xs => !xs.isEmpty
  | .jobj kvs => !kvs.isEmpty

/-- Truthiness of a session slot holding a JSON value (`None` is falsy). -/
def optTruthy : Option Json → Bool
  | none => false
  | some j => pyTruthy j

/-- Truthiness of a session slot holding a string. -/
def optStrTruthy : Option (List Char) → Bool
  | none => false
  | some s => !s.isEmpty

/-- The three transient session slots (`st.session_state`). -/
structure SessionState where
  evaluation : Option Json
  original_answer : Option (List Char)
  improved_answer : Option (List Char)

/-- Initial session state: all three slots `None` (lines 190–197). -/
def initState : SessionState := ⟨none, none, none⟩

/-- One script run's external inputs: the prompt text, which button (if
any) reported a click, and the outcomes the network would produce for
the evaluation call and for the two comparison answer calls. -/
structure RunInputs where
  user_prompt : List Char
  evaluate_clicked : Bool
  compare_clicked : Bool
  eval_result : Except ActionError Json
  original_result : Except TransportError (List Char)
  improved_result : Except TransportError (List Char)

/-- What one script run produces besides the new session state. -/
structure RunOutput where
  state : SessionState
  messages : List UIMessage
  chatCalls : Nat
  crashed : Bool
  evaluationDisplayed : Bool
  answersDisplayed : Bool

/-- The evaluate handler (lines 232–244): an empty prompt only warns; a
successful evaluation fills the `evaluation` slot and clears both
comparison answers; any exception emits a single error message and
leaves every slot untouched.  Returns the new state, the emitted
messages, and the number of chat requests issued. -/
def evalPhase (inp : RunInputs) (s0 : SessionState) :
    SessionState × List UIMessage × Nat :=
  if inp.evaluate_clicked then
    if (pyStrip inp.user_prompt).isEmpty then (s0, [.emptyPromptWarning], 0)
    else
      match inp.eval_result with
      | .ok v => (⟨some v, none, none⟩, [], 1)
      | .error e => (s0, [.evaluateError e], 1)
  else (s0, [], 0)

/-- The compare handler (lines 416–429): two sequential answer calls; on
success both answer slots are assigned, a `ReadTimeout` gets its own
message, any other exception a generic one, and in every failure case no
slot is assigned.  If the first call raises, the second is never
issued. -/
def comparePhase (inp : RunInputs) (s1 : SessionState) :
    SessionState × List UIMessage × Nat :=
  if inp.compare_clicked then
    match inp.original_result with
    | .error .readTimeout => (s1, [.compareTimeoutError], 1)
    | .error e => (s1, [.compareError e], 1)
    | .ok a1 =>
      match inp.improved_result with
      | .error .readTimeout => (s1, [.compareTimeoutError], 2)
      | .error e => (s1, [.compareError e], 2)
      | .ok a2 => (⟨s1.evaluation, some a1, some a2⟩, [], 2)
  else (s1, [], 0)

/-- One full script run (lines 232–457): the evaluate handler, then the
result display gated on `if evaluation:`, the comparison section gated on
`if improved_prompt:`, the compare handler, and the answers display gated
on both answer slots being truthy.  A truthy non-dict evaluation would
crash the run at `evaluation.get(...)` (an uncaught `AttributeError`);
that is recorded in `crashed`. -/
def runScript (inp : RunInputs) (s0 : SessionState) : RunOutput :=
  let ep := evalPhase inp s0
  match ep.1.evaluation with
  | none => ⟨ep.1, ep.2.1, ep.2.2, false, false, false⟩
  | some ev =>
    if pyTruthy ev then
      match ev with
      | .jobj kvs =>
        let improved_prompt :=
          (dictLookup kvs ['i', 'm', 'p', 'r', 'o', 'v', 'e', 'd', '_',
            'p', 'r', 'o', 'm', 'p', 't']).getD (.jstr [])
        if pyTruthy improved_prompt then
          let cp := comparePhase inp ep.1
          ⟨cp.1, ep.2.1 ++ cp.2.1, ep.2.2 + cp.2.2, false, true,
            optStrTruthy cp.1.original_answer && optStrTruthy cp.1.improved_answer⟩
        else ⟨ep.1, ep.2.1, ep.2.2, false, true, false⟩
      | _ => ⟨ep.1, ep.2.1, ep.2.2, true, false, false⟩
    else ⟨ep.1, ep.2.1, ep.2.2, false, false, false⟩

/-- A session: fold a list of script runs from a starting state. -/
def runTrace (inputs : List RunInputs) (s : SessionState) : SessionState :=
  inputs.foldl (fun st inp => (runScript inp st).state) s

/-- The invariant behind §3's display rule: whenever either comparison
answer slot is filled, a completed evaluation is present. -/
def stateInv (s : SessionState) : Prop :=
  (s.original_answer ≠ none ∨ s.improved_answer ≠ none) → s.evaluation ≠ none

/-! Helper lemmas about the modelled Python string operations. -/

theorem findIdx?_append_of_none {p : Char → Bool} {a : List Char}
    (l : List Char) (i : Nat) (h : ∀ x ∈ a, p x = false) :
    List.findIdx? p (a ++ l) i = List.findIdx? p l (i + a.length) := by
  induction a generalizing i with
  | nil => simp
  | cons c a ih =>
    have hc : p c = false := h c (by simp)
    have ha : ∀ x ∈ a, p x = false := fun x hx => h x (by simp [hx])
    simp only [List.cons_append, List.findIdx?_cons, hc, Bool.false_eq_true,
      if_false, ih (i + 1) ha]
    congr 1
    simp [List.length_cons]
    omega

theorem findIdx?_some_spec {p : Char → Bool} {l : List Char} {i j : Nat}
    (h : List.findIdx? p l i = some j) :
    ∃ k, j = i + k ∧ (∃ x, l[k]? = some x ∧ p x = true) ∧
      ∀ m, m < k → ∀ x, l[m]? = some x → p x = false := by
  induction l generalizing i with
  | nil => simp at h
  | cons c cs ih =>
    rw [List.findIdx?_cons] at h
    by_cases hc : p c = true
    · simp only [hc, if_true, Option.some.injEq] at h
      exact ⟨0, by omega, ⟨c, by simp, hc⟩, fun m hm => by omega⟩
    · simp only [hc, if_false] at h
      obtain ⟨k, hk, ⟨x, hx, hpx⟩, hmin⟩ := ih h
      refine ⟨k + 1, by omega, ⟨x, by simpa using hx, hpx⟩, ?_⟩
      intro m hm y hy
      match m with
      | 0 =>
        simp at hy
        subst hy
        simpa using hc
      | m + 1 =>
        exact hmin m (by omega) y (by simpa using hy)

theorem pyFind_none {l : List Char} {c : Char} (h : c ∉ l) : pyFind l c = none := by
  unfold pyFind
  rw [List.findIdx?_eq_none_iff]
  intro x hx
  simp only [beq_eq_false_iff_ne, ne_eq]
  rintro rfl
  exact h hx

theorem pyRfind_none {l : List Char} {c : Char} (h : c ∉ l) : pyRfind l c = none := by
  unfold pyRfind
  have : List.findIdx? (fun x => x == c) l.reverse = none := by
    rw [List.findIdx?_eq_none_iff]
    intro x hx
    simp only [beq_eq_false_iff_ne, ne_eq]
    rintro rfl
    exact h (List.mem_reverse.mp hx)
  rw [this]

theorem pyFind_append_left {a J b : List Char} (ha : '{' ∉ a)
    (hJ : ∃ t, J = '{' :: t) :
    pyFind (a ++ J ++ b) '{' = some a.length := by
  obtain ⟨t, rfl⟩ := hJ
  unfold pyFind
  rw [List.append_assoc]
  rw [findIdx?_append_of_none _ 0 (fun x hx => by
    simp only [beq_eq_false_iff_ne, ne_eq]
    rintro rfl
    exact ha hx)]
  rw [List.cons_append, List.findIdx?_cons]
  simp

theorem pyRfind_append_right {a J b : List Char} (hb : '}' ∉ b)
    (hJ : ∃ t, J = t ++ ['}']) :
    pyRfind (a ++ J ++ b) '}' = some (a.length + J.length - 1) := by
  obtain ⟨t, rfl⟩ := hJ
  unfold pyRfind
  have hrev : (a ++ (t ++ ['}']) ++ b).reverse =
      b.reverse ++ ('}' :: (t.reverse ++ a.reverse)) := by
    simp [List.reverse_append]
  rw [hrev]
  rw [findIdx?_append_of_none _ 0 (fun x hx => by
    simp only [beq_eq_false_iff_ne, ne_eq]
    rintro rfl
    exact hb (List.mem_reverse.mp hx))]
  rw [List.findIdx?_cons]
  simp only [beq_self_eq_true, if_true]
  simp only [List.length_append, List.length_reverse, List.length_cons,
    List.length_singleton, Option.some.injEq]
  omega

theorem pySlice_middle (a J b : List Char) :
    pySlice (a ++ J ++ b) a.length (a.length + J.length) = J := by
  unfold pySlice
  have h1 : (a ++ J ++ b).take (a.length + J.length) = a ++ J := by
    have := List.take_left (a ++ J) b
    simpa [List.length_append] using this
  rw [h1]
  exact List.drop_left a J

theorem mem_pyStrip {c : Char} {l : List Char} (h : c ∈ pyStrip l) : c ∈ l := by
  unfold pyStrip at h
  rw [List.mem_reverse] at h
  have h2 := (List.dropWhile_sublist (l := (l.dropWhile isPySpace).reverse) isPySpace).mem h
  rw [List.mem_reverse] at h2
  exact (List.dropWhile_sublist (l := l) isPySpace).mem h2

theorem pyStartswith_single {l : List Char} {c : Char} :
    pyStartswith l [c] = true ↔ ∃ t, l = c :: t := by
  unfold pyStartswith
  cases l with
  | nil => simp [List.isPrefixOf]
  | cons d t =>
    simp only [List.isPrefixOf, List.isPrefixOf_nil_left, Bool.and_true, beq_iff_eq]
    constructor
    · rintro rfl
      exact ⟨t, rfl⟩
    · rintro ⟨t', h⟩
      cases h
      rfl

theorem pyEndswith_single {l : List Char} {c : Char} :
    pyEndswith l [c] = true ↔ ∃ t, l = t ++ [c] := by
  unfold pyEndswith
  have : [c].isSuffixOf l = [c].reverse.isPrefixOf l.reverse := rfl
  rw [this]
  simp only [List.reverse_singleton]
  rw [show ([c].isPrefixOf l.reverse) = pyStartswith l.reverse [c] from rfl]
  rw [pyStartswith_single]
  constructor
  · rintro ⟨t, ht⟩
    refine ⟨t.reverse, ?_⟩
    have := congrArg List.reverse ht
    simpa using this
  · rintro ⟨t, rfl⟩
    exact ⟨t.reverse, by simp⟩

theorem firstSplit_eq {sep l pre post : List Char}
    (h : firstSplit sep l = some (pre, post)) : l = pre ++ sep ++ post := by
  induction l generalizing pre post with
  | nil =>
    unfold firstSplit at h
    by_cases hp : sep.isPrefixOf ([] : List Char) = true
    · have : sep = [] := by
        have := List.isPrefixOf_iff_prefix.mp hp
        simpa using this
      simp only [hp, if_true, Option.some.injEq, Prod.mk.injEq] at h
      obtain ⟨h1, h2⟩ := h
      subst h1
      subst h2
      simp [this]
    · simp only [hp] at h
      simp at h
  | cons d r ih =>
    unfold firstSplit at h
    by_cases hp : sep.isPrefixOf (d :: r) = true
    · simp only [hp, if_true, Option.some.injEq, Prod.mk.injEq] at h
      obtain ⟨t, ht⟩ := List.isPrefixOf_iff_prefix.mp hp
      obtain ⟨h1, h2⟩ := h
      subst h1
      subst h2
      rw [← ht, List.drop_left']
      · simp [← ht]
      · rfl
    · simp only [hp, Bool.false_eq_true, if_false] at h
      cases hfs : firstSplit sep r with
      | none => rw [hfs] at h; simp at h
      | some pq =>
        rw [hfs] at h
        simp only [Option.some.injEq, Prod.mk.injEq] at h
        obtain ⟨h1, h2⟩ := h
        subst h1
        subst h2
        have := ih (show firstSplit sep r = some (pq.1, pq.2) by rw [hfs])
        simp [this]

theorem mem_of_mem_pySplitAux {sep : List Char} (fuel : Nat) (l p : List Char)
    (hp : p ∈ pySplitAux sep fuel l) : ∀ c ∈ p, c ∈ l := by
  induction fuel generalizing l with
  | zero =>
    simp only [pySplitAux, List.mem_singleton] at hp
    subst hp
    exact fun c hc => hc
  | succ fuel ih =>
    simp only [pySplitAux] at hp
    cases hfs : firstSplit sep l with
    | none =>
      rw [hfs] at hp
      simp only [List.mem_singleton] at hp
      subst hp
      exact fun c hc => hc
    | some pq =>
      rw [hfs] at hp
      have hdec := firstSplit_eq hfs
      simp only [List.mem_cons] at hp
      rcases hp with rfl | hp
      · intro c hc
        rw [hdec]
        simp [hc]
      · intro c hc
        have := ih pq.2 hp c hc
        rw [hdec]
        simp [this]

theorem mem_of_mem_pySplit {sep l p : List Char} (hp : p ∈ pySplit sep l) :
    ∀ c ∈ p, c ∈ l :=
  mem_of_mem_pySplitAux _ l p hp

theorem fencedQual_mem_lbrace {p : List Char} (h : fencedQual p = true) : '{' ∈ p := by
  unfold fencedQual at h
  rw [Bool.and_eq_true] at h
  obtain ⟨t, ht⟩ := pyStartswith_single.mp h.1
  exact mem_pyStrip (by rw [ht]; simp)

theorem fencedQual_mem_rbrace {p : List Char} (h : fencedQual p = true) : '}' ∈ p := by
  unfold fencedQual at h
  rw [Bool.and_eq_true] at h
  obtain ⟨t, ht⟩ := pyEndswith_single.mp h.2
  exact mem_pyStrip (by rw [ht]; simp)

theorem fenceLoop_eq_find? (parts : List (List Char)) (text : List Char) :
    fenceLoop parts text = ((parts.find? fencedQual).map pyStrip).getD text := by
  induction parts with
  | nil => rfl
  | cons p ps ih =>
    by_cases hq : fencedQual p = true
    · simp [fenceLoop, hq, List.find?_cons_of_pos _ hq]
    · rw [List.find?_cons_of_neg _ (by simpa using hq)]
      simp only [fenceLoop, hq, Bool.false_eq_true, if_false]
      exact ih

theorem fenceLoop_self {parts : List (List Char)} {text : List Char}
    (h : ∀ p ∈ parts, fencedQual p = false) : fenceLoop parts text = text := by
  rw [fenceLoop_eq_find?]
  rw [List.find?_eq_none.mpr (fun p hp => by simp [h p hp])]
  rfl

theorem fenceStage_self_of_missing {text : List Char}
    (h : '{' ∉ text ∨ '}' ∉ text) : fenceStage text = text := by
  unfold fenceStage
  by_cases hc : pyContains fenceDelim text = true
  · simp only [hc, if_true]
    apply fenceLoop_self
    intro p hp
    by_contra hq
    rw [Bool.not_eq_false] at hq
    rcases h with h | h
    · exact h (mem_of_mem_pySplit hp '{' (fencedQual_mem_lbrace hq))
    · exact h (mem_of_mem_pySplit hp '}' (fencedQual_mem_rbrace hq))
  · simp [hc]

theorem bracketStage_self_of_missing {text : List Char}
    (h : '{' ∉ text ∨ '}' ∉ text) : bracketStage text = text := by
  unfold bracketStage
  by_cases hs : pyStartswith (pyStrip text) ['{'] = true
  · simp [hs]
  · simp only [hs, Bool.false_eq_true, if_false]
    rcases h with h | h
    · rw [pyFind_none h]
    · rw [pyRfind_none h]
      cases pyFind text '{' <;> rfl

theorem pyFind_spec {l : List Char} {c : Char} {s : Nat}
    (h : pyFind l c = some s) :
    (∃ x, l[s]? = some x ∧ x = c) ∧
      ∀ m, m < s → ∀ x, l[m]? = some x → x ≠ c := by
  unfold pyFind at h
  obtain ⟨k, hk, ⟨x, hx, hpx⟩, hmin⟩ := findIdx?_some_spec h
  have hks : k = s := by omega
  subst hks
  refine ⟨⟨x, hx, by simpa using hpx⟩, ?_⟩
  intro m hm y hy
  have := hmin m hm y hy
  simpa using this

theorem pyRfind_spec {l : List Char} {c : Char} {e : Nat}
    (h : pyRfind l c = some e) :
    (∃ x, l[e]? = some x ∧ x = c) ∧
      ∀ m, e < m → ∀ x, l[m]? = some x → x ≠ c := by
  unfold pyRfind at h
  cases hidx : List.findIdx? (fun x => x == c) l.reverse with
  | none => rw [hidx] at h; simp at h
  | some i =>
    rw [hidx] at h
    simp only [Option.some.injEq] at h
    obtain ⟨k, hk, ⟨x, hx, hpx⟩, hmin⟩ := findIdx?_some_spec hidx
    have hki : k = i := by omega
    subst hki
    have hklen : k < l.length := by
      have h2 := (List.getElem?_eq_some.mp hx).1
      simpa using h2
    have he : e = l.length - 1 - k := h.symm
    constructor
    · refine ⟨x, ?_, by simpa using hpx⟩
      rw [List.getElem?_reverse hklen] at hx
      rw [he]
      exact hx
    · intro m hm y hy hyc
      subst hyc
      have hmlen : m < l.length := (List.getElem?_eq_some.mp hy).1
      have hj : l.length - 1 - m < k := by omega
      have hjlen : l.length - 1 - m < l.length := by omega
      have hrev : l.reverse[l.length - 1 - m]? = l[m]? := by
        rw [List.getElem?_reverse hjlen]
        congr 1
        omega
      have := hmin (l.length - 1 - m) hj y (by rw [hrev]; exact hy)
      simp at this

/-! Claims C1–C4: the tolerant JSON extractor. -/

/-- Claim C1, counterexample: the input `\x7b"a":1\x7d x` is a valid JSON
object followed by prose, yet `extract_json_from_text` fails with
`ParseError` instead of returning `\x7b"a":1\x7d`: because the trimmed
text already starts with `\x7b`, no narrowing happens and `json.loads`
rejects the trailing prose as extra data. -/
theorem claim1_counterexample :
    extract_json_from_text ("\x7b\"a\":1\x7d x".toList) =
      .error .jsonDecodeError ∧
    ∀ v : Json, extract_json_from_text ("\x7b\"a\":1\x7d x".toList) ≠ .ok v := by
  constructor
  · rfl
  · intro v h
    rw [show extract_json_from_text ("\x7b\"a\":1\x7d x".toList) =
      Except.error ParseError.jsonDecodeError from rfl] at h
    exact Except.noConfusion h

/-- Claim C1, amended: for an input `a ++ J ++ b` where `J` is a text
that parses as a JSON value and is bracketed by `\x7b`/`\x7d`, the prose
`a` contains no `\x7b`, the prose `b` contains no `\x7d`, the fence stage
leaves the text unchanged, and the trimmed text does not already start
with `\x7b` (there is leading prose or a fence), `extract_json_from_text`
succeeds and returns the same structured record as parsing `J` directly.
Both named scenarios are instances (see the witness). -/
theorem claim1_extract_recovers_wrapped_object
    (a J b : List Char) (v : Json)
    (hfence : fenceStage (a ++ J ++ b) = a ++ J ++ b)
    (hstart : pyStartswith (pyStrip (a ++ J ++ b)) ['{'] = false)
    (ha : '{' ∉ a) (hb : '}' ∉ b)
    (hJs : pyStartswith J ['{'] = true)
    (hJe : pyEndswith J ['}'] = true)
    (hload : json_loads J = .ok v) :
    extract_json_from_text (a ++ J ++ b) = .ok v := by
  have hJs' := pyStartswith_single.mp hJs
  have hJe' := pyEndswith_single.mp hJe
  have hJlen : 1 ≤ J.length := by
    obtain ⟨t, rfl⟩ := hJs'
    simp
  unfold extract_json_from_text
  rw [hfence]
  unfold bracketStage
  rw [hstart]
  simp only [Bool.false_eq_true, if_false]
  rw [pyFind_append_left ha hJs', pyRfind_append_right hb hJe']
  show json_loads (pySlice (a ++ J ++ b) a.length (a.length + J.length - 1 + 1)) =
    Except.ok v
  have he : a.length + J.length - 1 + 1 = a.length + J.length := by omega
  rw [he, pySlice_middle]
  exact hload

/-- Claim C1, witness: scenario 1 (fenced `\x7b"a":1\x7d`) and scenario 2
(prose-wrapped `\x7b"a":1, "b":"x"\x7d`) both follow from the amended
theorem and return the directly parsed record. -/
theorem claim1_witness :
    extract_json_from_text
        ("```json\n".toList ++ "\x7b\"a\":1\x7d".toList ++ "\n```".toList) =
      .ok (.jobj [("a".toList, .jint 1)]) ∧
    extract_json_from_text
        ("Sure, here you go: ".toList ++ "\x7b\"a\":1, \"b\":\"x\"\x7d".toList ++
          " Hope that helps!".toList) =
      .ok (.jobj [("a".toList, .jint 1), ("b".toList, .jstr "x".toList)]) := by
  constructor
  · exact claim1_extract_recovers_wrapped_object _ _ _ _ rfl rfl (by decide)
      (by decide) rfl rfl rfl
  · exact claim1_extract_recovers_wrapped_object _ _ _ _ rfl rfl (by decide)
      (by decide) rfl rfl rfl

/-- Claim C2, counterexample: the input `3` contains neither `\x7b` nor
`\x7d`, yet `extract_json_from_text` does not fail with `ParseError` —
it returns the parsed integer `3`, because `json.loads` accepts any JSON
value, not only objects. -/
theorem claim2_counterexample :
    extract_json_from_text ("3".toList) = .ok (.jint 3) ∧
    ∀ e : ParseError, extract_json_from_text ("3".toList) ≠ .error e := by
  constructor
  · rfl
  · intro e h
    rw [show extract_json_from_text ("3".toList) =
      Except.ok (Json.jint 3) from rfl] at h
    exact Except.noConfusion h

/-- Claim C2, amended: on a text lacking `\x7b` or lacking `\x7d`, both
stages of the extractor leave the text unchanged, so
`extract_json_from_text` behaves exactly as `json.loads` on the raw
text: it fails with `ParseError` precisely when the text is not itself
valid JSON (so `no json here` fails, but a bare JSON value such as `3`
succeeds and returns a non-object). -/
theorem claim2_extract_eq_loads_of_missing_brace :
    (∀ text : List Char, ('{' ∉ text ∨ '}' ∉ text) →
      extract_json_from_text text = json_loads text) ∧
    extract_json_from_text ("no json here".toList) = .error .jsonDecodeError := by
  constructor
  · intro text h
    unfold extract_json_from_text
    rw [fenceStage_self_of_missing h, bracketStage_self_of_missing h]
  · rfl

/-- Claim C2, witness: the amended theorem applied to `no json here`,
which contains no brace: extraction coincides with direct parsing. -/
theorem claim2_witness :
    extract_json_from_text ("no json here".toList) =
      json_loads ("no json here".toList) :=
  claim2_extract_eq_loads_of_missing_brace.1 _ (Or.inl (by decide))

/-- Claim C3: when the text contains the code-fence delimiter, the
extractor's result is obtained by splitting on the delimiter, scanning
the segments in order for the first whose trimmed form starts with
`\x7b` and ends with `\x7d` (that is `List.find?`), taking that trimmed
segment as the working text — or the original text when no segment
qualifies — and then running the bracket-narrowing stage and the JSON
parse on it. -/
theorem claim3_fence_selection :
    ∀ text : List Char, pyContains fenceDelim text = true →
      extract_json_from_text text =
        json_loads (bracketStage
          ((((pySplit fenceDelim text).find? fencedQual).map pyStrip).getD text)) := by
  intro text h
  unfold extract_json_from_text fenceStage
  rw [h]
  simp only [if_true]
  rw [fenceLoop_eq_find?]

/-- Claim C3, witness: a fenced input with noise on both sides; the
delimiter is present and the claimed pipeline equation holds there. -/
theorem claim3_witness :
    pyContains fenceDelim ("noise```\n\x7b\"a\":1\x7d\n```noise".toList) = true ∧
    extract_json_from_text ("noise```\n\x7b\"a\":1\x7d\n```noise".toList) =
      json_loads (bracketStage
        ((((pySplit fenceDelim ("noise```\n\x7b\"a\":1\x7d\n```noise".toList)).find?
          fencedQual).map pyStrip).getD ("noise```\n\x7b\"a\":1\x7d\n```noise".toList))) :=
  ⟨rfl, claim3_fence_selection _ rfl⟩

/-- Claim C4: when the working text left by the fence stage does not
start (after trimming) with `\x7b`, the extractor locates the first
`\x7b` and the last `\x7d` (in the precise first/last-occurrence sense,
part 3 and part 4), narrows to the inclusive span between them when both
exist (part 1), and otherwise parses the working text unchanged
(part 2). -/
theorem claim4_bracket_narrowing :
    ∀ text w : List Char, w = fenceStage text →
      pyStartswith (pyStrip w) ['{'] = false →
      ((∀ s e, pyFind w '{' = some s → pyRfind w '}' = some e →
          extract_json_from_text text = json_loads (pySlice w s (e + 1))) ∧
       ((pyFind w '{' = none ∨ pyRfind w '}' = none) →
          extract_json_from_text text = json_loads w) ∧
       (∀ s, pyFind w '{' = some s →
          (∃ x, w[s]? = some x ∧ x = '{') ∧
            ∀ m, m < s → ∀ x, w[m]? = some x → x ≠ '{') ∧
       (∀ e, pyRfind w '}' = some e →
          (∃ x, w[e]? = some x ∧ x = '}') ∧
            ∀ m, e < m → ∀ x, w[m]? = some x → x ≠ '}')) := by
  intro text w hw hstart
  refine ⟨?_, ?_, ?_, ?_⟩
  · intro s e hs he
    unfold extract_json_from_text
    rw [← hw]
    unfold bracketStage
    rw [hstart]
    simp only [Bool.false_eq_true, if_false]
    rw [hs, he]
  · intro h
    unfold extract_json_from_text
    rw [← hw]
    unfold bracketStage
    rw [hstart]
    simp only [Bool.false_eq_true, if_false]
    rcases h with h | h
    · rw [h]
    · rw [h]
      cases pyFind w '{' <;> rfl
  · intro s hs
    exact pyFind_spec hs
  · intro e he
    exact pyRfind_spec he

/-- Claim C4, witness: on scenario 2's input the fence stage is the
identity, the trimmed text does not start with `\x7b`, the first `\x7b`
is at index 19 and the last `\x7d` at index 34, and extraction equals
parsing the narrowed span `[19:35]`. -/
theorem claim4_witness :
    pyStartswith (pyStrip (fenceStage
      ("Sure, here you go: \x7b\"a\":1, \"b\":\"x\"\x7d Hope that helps!".toList)))
      ['{'] = false ∧
    extract_json_from_text
        ("Sure, here you go: \x7b\"a\":1, \"b\":\"x\"\x7d Hope that helps!".toList) =
      json_loads (pySlice (fenceStage
        ("Sure, here you go: \x7b\"a\":1, \"b\":\"x\"\x7d Hope that helps!".toList))
        19 35) :=
  ⟨rfl,
    (claim4_bracket_narrowing
      ("Sure, here you go: \x7b\"a\":1, \"b\":\"x\"\x7d Hope that helps!".toList)
      _ rfl rfl).1 19 34 rfl rfl⟩

/-! Claims C5–C6: the chat transport. -/

/-- Claim C5: composed with a transport stub whose response body is
`\x7b"message":\x7b"content": X\x7d\x7d` with status 200, `ollama_chat`
returns exactly the content field `X`, for every message list, model and
timeout. -/
theorem claim5_chat_roundtrip :
    ∀ (messages : List ChatMessage) (model : List Char) (timeout : Nat)
      (X : List Char),
      ollama_chat (fun _ _ => .ok ⟨200,
          some (.jobj [(['m', 'e', 's', 's', 'a', 'g', 'e'],
            .jobj [(['c', 'o', 'n', 't', 'e', 'n', 't'], .jstr X)])])⟩)
        messages model timeout = .ok (.jstr X) := by
  intro messages model timeout X
  rfl

/-- Claim C6, counterexample: a status-300 response — non-2xx — with a
well-formed body does not surface as any `TransportError`:
`raise_for_status` raises only for 4xx/5xx, so `ollama_chat` returns the
content successfully.  The claim's "non-2xx HTTP status" failure mode is
therefore too wide; the code's status failure mode is 4xx/5xx. -/
theorem claim6_counterexample :
    ollama_chat (fun _ _ => .ok ⟨300,
        some (.jobj [(['m', 'e', 's', 's', 'a', 'g', 'e'],
          .jobj [(['c', 'o', 'n', 't', 'e', 'n', 't'], .jstr ("ok".toList))])])⟩)
      [] [] 180 = .ok (.jstr ("ok".toList)) ∧
    ∀ e : TransportError,
      ollama_chat (fun _ _ => .ok ⟨300,
          some (.jobj [(['m', 'e', 's', 's', 'a', 'g', 'e'],
            .jobj [(['c', 'o', 'n', 't', 'e', 'n', 't'], .jstr ("ok".toList))])])⟩)
        [] [] 180 ≠ .error e := by
  constructor
  · rfl
  · intro e h
    rw [show ollama_chat (fun _ _ => .ok ⟨300,
        some (.jobj [(['m', 'e', 's', 's', 'a', 'g', 'e'],
          .jobj [(['c', 'o', 'n', 't', 'e', 'n', 't'], .jstr ("ok".toList))])])⟩)
      [] [] 180 = Except.ok (Json.jstr ("ok".toList)) from rfl] at h
    exact Except.noConfusion h

/-- Claim C6, amended: the four failure modes — connection failure, read
timeout, a 4xx/5xx HTTP status (the statuses `raise_for_status` raises
for; other non-2xx statuses such as 3xx do not raise), and a response
body missing the expected fields — each surface as their own
`TransportError` (parts 1–4), the resulting errors are pairwise distinct
(part 5), and the transport is never retried: the result of
`ollama_chat` depends only on the single response to the single payload
it posts (part 6). -/
theorem claim6_transport_failure_modes :
    (∀ (messages : List ChatMessage) (model : List Char) (timeout : Nat),
        ollama_chat (fun _ _ => .error .connectionError) messages model timeout =
          .error .connectionError) ∧
    (∀ (messages : List ChatMessage) (model : List Char) (timeout : Nat),
        ollama_chat (fun _ _ => .error .readTimeout) messages model timeout =
          .error .readTimeout) ∧
    (∀ (messages : List ChatMessage) (model : List Char) (timeout : Nat)
        (status : Nat) (body : Option Json), 400 ≤ status → status < 600 →
        ollama_chat (fun _ _ => .ok ⟨status, body⟩) messages model timeout =
          .error (.httpStatus status)) ∧
    (∀ (messages : List ChatMessage) (model : List Char) (timeout : Nat),
        ollama_chat (fun _ _ => .ok ⟨200, some (.jobj [])⟩) messages model timeout =
          .error .missingField) ∧
    (∀ s : Nat, TransportError.connectionError ≠ .readTimeout ∧
        TransportError.connectionError ≠ .httpStatus s ∧
        TransportError.connectionError ≠ .missingField ∧
        TransportError.readTimeout ≠ .httpStatus s ∧
        TransportError.readTimeout ≠ .missingField ∧
        TransportError.httpStatus s ≠ .missingField) ∧
    (∀ (post post' : ChatPayload → Nat → Except RequestFailure HTTPResponse)
        (messages : List ChatMessage) (model : List Char) (timeout : Nat),
        post ⟨model, messages, false⟩ timeout = post' ⟨model, messages, false⟩ timeout →
        ollama_chat post messages model timeout =
          ollama_chat post' messages model timeout) := by
  refine ⟨fun _ _ _ => rfl, fun _ _ _ => rfl, ?_, fun _ _ _ => rfl, ?_, ?_⟩
  · intro messages model timeout status body h1 h2
    simp only [ollama_chat]
    rw [if_pos (And.intro h1 h2)]
  · intro s
    refine ⟨?_, ?_, ?_, ?_, ?_, ?_⟩ <;> intro h <;> exact TransportError.noConfusion h
  · intro post post' messages model timeout h
    simp only [ollama_chat]
    rw [h]

/-- Claim C6, witness: a stubbed 404 response surfaces as the
HTTP-status transport error. -/
theorem claim6_witness :
    ollama_chat (fun _ _ => .ok ⟨404, some (.jobj [])⟩) [] [] 180 =
      .error (.httpStatus 404) :=
  claim6_transport_failure_modes.2.2.1 [] [] 180 404 (some (.jobj []))
    (by decide) (by decide)

/-! Helper lemmas about the script-run model. -/

theorem evalPhase_not_clicked (inp : RunInputs) (s0 : SessionState)
    (h : inp.evaluate_clicked = false) : evalPhase inp s0 = (s0, [], 0) := by
  unfold evalPhase
  simp [h]

theorem evalPhase_of_error (inp : RunInputs) (s0 : SessionState) (e : ActionError)
    (h1 : inp.evaluate_clicked = true)
    (h2 : (pyStrip inp.user_prompt).isEmpty = false)
    (h3 : inp.eval_result = .error e) :
    evalPhase inp s0 = (s0, [.evaluateError e], 1) := by
  unfold evalPhase
  simp [h1, h2, h3]

theorem evalPhase_of_ok (inp : RunInputs) (s0 : SessionState) (v : Json)
    (h1 : inp.evaluate_clicked = true)
    (h2 : (pyStrip inp.user_prompt).isEmpty = false)
    (h3 : inp.eval_result = .ok v) :
    evalPhase inp s0 = (⟨some v, none, none⟩, [], 1) := by
  unfold evalPhase
  simp [h1, h2, h3]

theorem evalPhase_state_cases (inp : RunInputs) (s0 : SessionState) :
    (evalPhase inp s0).1 = s0 ∨
    ∃ v, (evalPhase inp s0).1 = ⟨some v, none, none⟩ := by
  unfold evalPhase
  by_cases h1 : inp.evaluate_clicked = true
  · simp only [h1, if_true]
    by_cases h2 : (pyStrip inp.user_prompt).isEmpty = true
    · simp [h2]
    · simp only [h2, Bool.false_eq_true, if_false]
      cases inp.eval_result with
      | ok v => exact Or.inr ⟨v, rfl⟩
      | error e => exact Or.inl rfl
  · simp [h1]

theorem comparePhase_not_clicked (inp : RunInputs) (s1 : SessionState)
    (h : inp.compare_clicked = false) : comparePhase inp s1 = (s1, [], 0) := by
  unfold comparePhase
  simp [h]

theorem comparePhase_state_cases (inp : RunInputs) (s1 : SessionState) :
    (comparePhase inp s1).1 = s1 ∨
    ∃ a b, (comparePhase inp s1).1 = ⟨s1.evaluation, some a, some b⟩ := by
  unfold comparePhase
  by_cases h : inp.compare_clicked = true
  · simp only [h, if_true]
    cases inp.original_result with
    | error e => cases e <;> exact Or.inl rfl
    | ok a =>
      cases inp.improved_result with
      | error e => cases e <;> exact Or.inl rfl
      | ok b => exact Or.inr ⟨a, b, rfl⟩
  · simp [h]

theorem comparePhase_of_error (inp : RunInputs) (s1 : SessionState)
    (h : (∃ e, inp.original_result = .error e) ∨
      (∃ e, inp.improved_result = .error e)) :
    (comparePhase inp s1).1 = s1 := by
  unfold comparePhase
  by_cases hc : inp.compare_clicked = true
  · simp only [hc, if_true]
    rcases h with ⟨e, he⟩ | ⟨e, he⟩
    · rw [he]
      cases e <;> rfl
    · cases ho : inp.original_result with
      | error e2 => cases e2 <;> rfl
      | ok a =>
        rw [he]
        cases e <;> rfl
  · simp [hc]

theorem optStrTruthy_ne_none {x : Option (List Char)}
    (h : optStrTruthy x = true) : x ≠ none := by
  cases x with
  | none => simp [optStrTruthy] at h
  | some s => simp

theorem runScript_char (inp : RunInputs) (s0 : SessionState) :
    ∃ b : Bool,
      (runScript inp s0).state =
        (if b then (comparePhase inp (evalPhase inp s0).1).1
         else (evalPhase inp s0).1) ∧
      (runScript inp s0).messages =
        (evalPhase inp s0).2.1 ++
          (if b then (comparePhase inp (evalPhase inp s0).1).2.1 else []) ∧
      (b = true → (evalPhase inp s0).1.evaluation ≠ none) := by
  unfold runScript
  rcases hE : evalPhase inp s0 with ⟨s1, msgs1, calls1⟩
  dsimp only
  cases hev : s1.evaluation with
  | none => exact ⟨false, by simp, by simp, by simp⟩
  | some ev =>
    by_cases ht : pyTruthy ev = true
    · cases ev with
      | jobj kvs =>
        simp only [ht, if_true]
        by_cases hip : pyTruthy ((dictLookup kvs ['i', 'm', 'p', 'r', 'o', 'v',
            'e', 'd', '_', 'p', 'r', 'o', 'm', 'p', 't']).getD (.jstr [])) = true
        · refine ⟨true, ?_, ?_, ?_⟩
          · simp [hip]
          · simp [hip]
          · intro _
            simp [hev]
        · refine ⟨false, ?_, ?_, ?_⟩
          · simp [hip]
          · simp [hip]
          · simp
      | jnull => simp [pyTruthy] at ht
      | jbool v => exact ⟨false, by simp [ht], by simp [ht], by simp⟩
      | jint n => exact ⟨false, by simp [ht], by simp [ht], by simp⟩
      | jfloat l => exact ⟨false, by simp [ht], by simp [ht], by simp⟩
      | jstr s => exact ⟨false, by simp [ht], by simp [ht], by simp⟩
      | jarr xs => exact ⟨false, by simp [ht], by simp [ht], by simp⟩
    · exact ⟨false, by simp [ht], by simp [ht], by simp⟩

theorem runScript_displayed (inp : RunInputs) (s0 : SessionState)
    (h : (runScript inp s0).answersDisplayed = true) :
    (runScript inp s0).state.evaluation ≠ none ∧
    optStrTruthy (runScript inp s0).state.original_answer = true ∧
    optStrTruthy (runScript inp s0).state.improved_answer = true := by
  unfold runScript at h ⊢
  rcases hE : evalPhase inp s0 with ⟨s1, msgs1, calls1⟩
  rw [hE] at h
  dsimp only at h ⊢
  cases hev : s1.evaluation with
  | none =>
    rw [hev] at h
    simp at h
  | some ev =>
    rw [hev] at h
    by_cases ht : pyTruthy ev = true
    · cases ev with
      | jobj kvs =>
        simp only [ht, if_true] at h ⊢
        by_cases hip : pyTruthy ((dictLookup kvs ['i', 'm', 'p', 'r', 'o', 'v',
            'e', 'd', '_', 'p', 'r', 'o', 'm', 'p', 't']).getD (.jstr [])) = true
        · simp only [hip, if_true] at h ⊢
          rcases comparePhase_state_cases inp s1 with h2 | ⟨a, b, h2⟩
          · rw [h2] at h ⊢
            rw [Bool.and_eq_true] at h
            exact ⟨by rw [hev]; simp, h.1, h.2⟩
          · rw [h2] at h ⊢
            dsimp only at h ⊢
            rw [Bool.and_eq_true] at h
            exact ⟨by rw [hev]; simp, h.1, h.2⟩
        · simp only [hip, Bool.false_eq_true, if_false] at h
      | jnull => simp [pyTruthy] at ht
      | jbool v => simp only [ht, if_true] at h; simp at h
      | jint n => simp only [ht, if_true] at h; simp at h
      | jfloat l => simp only [ht, if_true] at h; simp at h
      | jstr s => simp only [ht, if_true] at h; simp at h
      | jarr xs => simp only [ht, if_true] at h; simp at h
    · simp only [ht, Bool.false_eq_true, if_false] at h

/-! Claims C7–C10: the evaluate/compare handlers and the session slots. -/

/-- Claim C7: when the evaluate action is triggered on a non-empty
prompt and `call_prompt_evaluator` raises (for instance a transport
timeout), the run emits exactly one error message and leaves all three
session slots — in particular any previously stored evaluation —
unchanged. -/
theorem claim7_evaluate_failure_preserves_state :
    ∀ (inp : RunInputs) (s0 : SessionState) (e : ActionError),
      inp.evaluate_clicked = true →
      (pyStrip inp.user_prompt).isEmpty = false →
      inp.eval_result = .error e →
      inp.compare_clicked = false →
      (runScript inp s0).state = s0 ∧
      (runScript inp s0).messages = [.evaluateError e] := by
  intro inp s0 e h1 h2 h3 h4
  obtain ⟨b, hst, hmsg, _⟩ := runScript_char inp s0
  have hE := evalPhase_of_error inp s0 e h1 h2 h3
  constructor
  · rw [hst, hE]
    cases b
    · simp
    · simp [comparePhase_not_clicked inp _ h4]
  · rw [hmsg, hE]
    cases b
    · simp
    · simp [comparePhase_not_clicked inp _ h4]

/-- Claim C7, witness: a concrete run whose evaluation call times out at
the transport layer leaves a previously stored evaluation untouched and
shows a single error message. -/
theorem claim7_witness :
    (runScript
        ⟨"hi".toList, true, false,
          .error (.transport .readTimeout), .ok ("x".toList), .ok ("y".toList)⟩
        ⟨some (.jobj [("improved_prompt".toList, .jstr ("p".toList))]), none, none⟩).state =
      ⟨some (.jobj [("improved_prompt".toList, .jstr ("p".toList))]), none, none⟩ ∧
    (runScript
        ⟨"hi".toList, true, false,
          .error (.transport .readTimeout), .ok ("x".toList), .ok ("y".toList)⟩
        ⟨some (.jobj [("improved_prompt".toList, .jstr ("p".toList))]), none, none⟩).messages =
      [.evaluateError (.transport .readTimeout)] :=
  claim7_evaluate_failure_preserves_state _ _ _ rfl rfl rfl rfl

/-- Claim C8, counterexample: a run in which the compare click arrives
with no prior evaluation produces no message at all — the claim's
"rejected with a guidance message" does not happen (the comparison
controls are simply never rendered); only the "no network call" half is
true. -/
theorem claim8_counterexample :
    (runScript
        ⟨"hi".toList, false, true,
          .error (.transport .readTimeout), .ok ("x".toList), .ok ("y".toList)⟩
        initState).messages = [] ∧
    (runScript
        ⟨"hi".toList, false, true,
          .error (.transport .readTimeout), .ok ("x".toList), .ok ("y".toList)⟩
        initState).chatCalls = 0 :=
  ⟨rfl, rfl⟩

/-- Claim C8, amended: when no prior successful evaluation exists (the
evaluation slot is `None`) and the evaluate action is not triggered in
the same run, a compare click has no effect whatsoever: no network call
is issued, no message (guidance or otherwise) is shown, the state is
unchanged, and nothing is displayed — the compare control is not
rendered. -/
theorem claim8_compare_without_evaluation_is_inert :
    ∀ (inp : RunInputs) (s0 : SessionState),
      s0.evaluation = none →
      inp.evaluate_clicked = false →
      runScript inp s0 = ⟨s0, [], 0, false, false, false⟩ := by
  intro inp s0 h1 h2
  unfold runScript
  rw [evalPhase_not_clicked inp s0 h2]
  dsimp only
  rw [h1]

/-- Claim C8, witness: the amended theorem at a concrete compare click
on a fresh session. -/
theorem claim8_witness :
    runScript
        ⟨"hi".toList, false, true,
          .ok (.jobj []), .ok ("x".toList), .ok ("y".toList)⟩
        initState = ⟨initState, [], 0, false, false, false⟩ :=
  claim8_compare_without_evaluation_is_inert _ _ rfl rfl

/-- Claim C9: a successful evaluate action stores the new evaluation and
resets both comparison answer slots to absent (part 1); consequently, in
any session starting from the initial state, a filled answer slot always
coexists with a present evaluation (part 2), and answers are displayed
only when an evaluation is present and both answer slots are filled
(part 3). -/
theorem claim9_new_evaluation_invalidates_answers :
    (∀ (inp : RunInputs) (s0 : SessionState) (v : Json),
        inp.evaluate_clicked = true →
        (pyStrip inp.user_prompt).isEmpty = false →
        inp.eval_result = .ok v →
        inp.compare_clicked = false →
        (runScript inp s0).state = ⟨some v, none, none⟩) ∧
    (∀ inputs : List RunInputs, stateInv (runTrace inputs initState)) ∧
    (∀ (inp : RunInputs) (s : SessionState),
        (runScript inp s).answersDisplayed = true →
        (runScript inp s).state.evaluation ≠ none ∧
        (runScript inp s).state.original_answer ≠ none ∧
        (runScript inp s).state.improved_answer ≠ none) := by
  refine ⟨?_, ?_, ?_⟩
  · intro inp s0 v h1 h2 h3 h4
    obtain ⟨b, hst, _, _⟩ := runScript_char inp s0
    have hE := evalPhase_of_ok inp s0 v h1 h2 h3
    rw [hst, hE]
    cases b
    · simp
    · simp [comparePhase_not_clicked inp _ h4]
  · have step : ∀ (inp : RunInputs) (s : SessionState),
        stateInv s → stateInv (runScript inp s).state := by
      intro inp s hs
      obtain ⟨b, hst, _, hb⟩ := runScript_char inp s
      have hinv1 : stateInv (evalPhase inp s).1 := by
        rcases evalPhase_state_cases inp s with h | ⟨v, h⟩
        · rw [h]; exact hs
        · rw [h]
          intro _
          simp
      cases b
      · rw [hst] at *
        simpa using hinv1
      · rw [hst]
        simp only [if_true]
        rcases comparePhase_state_cases inp (evalPhase inp s).1 with h | ⟨a, c, h⟩
        · rw [h]
          exact hinv1
        · rw [h]
          intro _
          simpa using hb rfl
    intro inputs
    have : ∀ s, stateInv s → stateInv (runTrace inputs s) := by
      induction inputs with
      | nil => intro s hs; exact hs
      | cons inp rest ih =>
        intro s hs
        exact ih _ (step inp s hs)
    exact this initState (by
      intro h
      rcases h with h | h <;> simp [initState] at h)
  · intro inp s h
    obtain ⟨h1, h2, h3⟩ := runScript_displayed inp s h
    exact ⟨h1, optStrTruthy_ne_none h2, optStrTruthy_ne_none h3⟩

/-- Claim C9, witness: a concrete successful evaluation over a state
that still holds old comparison answers stores the new record and clears
both answers. -/
theorem claim9_witness :
    (runScript
        ⟨"hi".toList, true, false,
          .ok (.jobj [("total_score".toList, .jint 50)]),
          .ok ("x".toList), .ok ("y".toList)⟩
        ⟨some (.jobj []), some ("olda".toList), some ("oldb".toList)⟩).state =
      ⟨some (.jobj [("total_score".toList, .jint 50)]), none, none⟩ :=
  claim9_new_evaluation_invalidates_answers.1 _ _ _ rfl rfl rfl rfl

/-- Claim C10: if either of the two sequential answer calls of a compare
action raises, neither answer slot is modified — the whole session state
is exactly the prior one (part 1, stated for runs without a simultaneous
evaluate action, the only way a compare can run); and answers are
displayed only when both slots are present (part 2). -/
theorem claim10_compare_atomicity :
    (∀ (inp : RunInputs) (s0 : SessionState),
        inp.evaluate_clicked = false →
        ((∃ e, inp.original_result = .error e) ∨
          (∃ e, inp.improved_result = .error e)) →
        (runScript inp s0).state = s0) ∧
    (∀ (inp : RunInputs) (s : SessionState),
        (runScript inp s).answersDisplayed = true →
        (runScript inp s).state.original_answer ≠ none ∧
        (runScript inp s).state.improved_answer ≠ none) := by
  constructor
  · intro inp s0 h1 h2
    obtain ⟨b, hst, _, _⟩ := runScript_char inp s0
    have hE := evalPhase_not_clicked inp s0 h1
    rw [hst, hE]
    cases b
    · simp
    · simp only [if_true]
      have := comparePhase_of_error inp ((s0, ([] : List UIMessage), 0) :
        SessionState × List UIMessage × Nat).1 h2
      simpa using this
  · intro inp s h
    obtain ⟨_, h2, h3⟩ := runScript_displayed inp s h
    exact ⟨optStrTruthy_ne_none h2, optStrTruthy_ne_none h3⟩

/-- Claim C10, witness: a compare run whose second answer call times out
leaves the prior state (including a previously stored answer pair)
untouched. -/
theorem claim10_witness :
    (runScript
        ⟨"hi".toList, false, true,
          .ok (.jobj []), .ok ("x".toList), .error .readTimeout⟩
        ⟨some (.jobj [("improved_prompt".toList, .jstr ("p".toList))]),
          some ("olda".toList), some ("oldb".toList)⟩).state =
      ⟨some (.jobj [("improved_prompt".toList, .jstr ("p".toList))]),
        some ("olda".toList), some ("oldb".toList)⟩ :=
  claim10_compare_atomicity.1 _ _ rfl (Or.inr ⟨.readTimeout, rfl⟩)
